import Mathlib

/-! Image compression endpoint and upload form

A shallow embedding of `src/pages/api/compress.js` (the `handler` of the
`/api/compress` route) and of `handleSubmit` in `src/pages/index.js`.

The handler talks to the outside world through `fs`, `formidable`,
`child_process.exec`, `uuid` and `path.join`.  Every such call is made at most
once per call site in one request, so one request is modelled as a pure
function from a `World` (what each of those calls answers) to a `Run`: the
sequence of calls made, in program order, and the HTTP response.  Console
logging is not modelled.  `path.join` is the POSIX one of Node's `lib/path.js`.
-/


namespace Compress

/-! ## Node's `path.join` -/

/-- Cuts a character sequence at every `/`; the pieces never contain a `/`. -/
def splitSlash : List Char → List (List Char)
  | [] => [[]]
  | c :: cs =>
    if c = '/' then [] :: splitSlash cs
    else
      match splitSlash cs with
      | [] => [[c]]
      | s :: ss => (c :: s) :: ss

/-- One step of `normalizeString` of Node's `lib/path.js`, on whole segments.
`stack` holds the segments kept so far, last one first.  Empty and `.`
segments are dropped, `..` removes the segment before it when there is one that
is not itself `..`, and is otherwise kept only when `allowAboveRoot`. -/
def pushSegment (allowAboveRoot : Bool) (stack : List (List Char)) (seg : List Char) :
    List (List Char) :=
  if seg = [] ∨ seg = ['.'] then stack
  else if seg = ['.', '.'] then
    match stack with
    | top :: rest =>
      if top = ['.', '.'] then (if allowAboveRoot then seg :: stack else stack)
      else rest
    | [] => if allowAboveRoot then [seg] else []
  else seg :: stack

/-- Glues segments back together with `/` between them. -/
def joinSlash : List (List Char) → List Char
  | [] => []
  | [s] => s
  | s :: t :: rest => s ++ '/' :: joinSlash (t :: rest)

/-- The function `normalizeString(path, allowAboveRoot, '/', isPosixPathSeparator)`. -/
def normalizeString (path : List Char) (allowAboveRoot : Bool) : List Char :=
  joinSlash ((splitSlash path).foldl (pushSegment allowAboveRoot) []).reverse

/-- The function `path.posix.normalize`. -/
def normalize (path : List Char) : List Char :=
  if path = [] then ['.']
  else
    let isAbsolute := path.head? = some '/'
    let trailingSeparator := path.getLast? = some '/'
    let p := normalizeString path (!isAbsolute)
    if p = [] then
      if isAbsolute then ['/'] else if trailingSeparator then ['.', '/'] else ['.']
    else
      let p := if trailingSeparator then p ++ ['/'] else p
      if isAbsolute then '/' :: p else p

/-- The function `path.posix.join(...args)`: the non-empty arguments are
concatenated with `/` between them and the result is normalised. -/
def join (args : List String) : String :=
  match (args.filter (fun a => a.length > 0)).map String.data with
  | [] => "."
  | parts => ⟨normalize (joinSlash parts)⟩

/-! ## Data of one request -/

/-- Contents of a Node `Buffer`. -/
abbrev Buffer := List UInt8

/-- A file of the parsed form, as far as the handler reads it. -/
structure UploadedFile where
  originalFilename : String
  filepath : String

/-- The text fields of the parsed form the handler reads. -/
structure Fields where
  targetSize : Option String
  resizeFactor : Option String

/-- The `files` of the parsed form; `image` is absent when no such file was sent. -/
structure Files where
  image : Option UploadedFile

/-- What the callback of `exec` receives: the message of `error` when it is
set, and the captured output. -/
structure ExecResult where
  error : Option String
  stdout : String
  stderr : String

/-- What the outside world answers to the calls the handler makes during one
request.  `Except.error m` is a thrown (or rejected) `Error` with message `m`. -/
structure World where
  method : String
  cwd : String
  mkdir : String → Except String Unit
  parse : Except String (Fields × Files)
  uuidv4 : String
  copyFile : String → String → Except String Unit
  exec : String → ExecResult
  access : String → Except String Unit
  readFile : String → Except String Buffer
  unlink : String → Except String Unit

/-- The calls the handler makes on the file system, the form parser and the shell. -/
inductive Effect
  | mkdir (path : String)
  | parse
  | copyFile (src dest : String)
  | exec (command : String)
  | access (path : String)
  | readFile (path : String)
  | unlink (path : String)
  deriving DecidableEq, Repr

/-- Body of a response: `res.json({ error })` or `res.send(buffer)`. -/
inductive Body
  | json (error : String)
  | buffer (data : Buffer)
  deriving DecidableEq, Repr

/-- The response: status code (200 unless `res.status` is called), the headers
set with `res.setHeader`, and the body. -/
structure Response where
  status : Nat
  headers : List (String × String)
  body : Body
  deriving DecidableEq, Repr

/-- One handled request: the calls made, in order, and the response sent. -/
structure Run where
  effects : List Effect
  response : Response
  deriving DecidableEq, Repr

/-! ## The handler -/

/-- JavaScript `value || fallback` on an optional string: an absent field
(`undefined`) and the empty string are falsy. -/
def orDefault (value : Option String) (fallback : String) : String :=
  match value with
  | none => fallback
  | some s => if s = "" then fallback else s

/-- The call `s.replace(/\\/g, '\\\\')`: every backslash is replaced by two. -/
def replaceBackslashes (s : String) : String :=
  ⟨s.data.flatMap (fun c => if c = '\\' then ['\\', '\\'] else [c])⟩

/-- Line 21: `join(process.cwd(), 'uploads')`. -/
def uploadsDir (cwd : String) : String := join [cwd, "uploads"]

/-- Line 22: `join(process.cwd(), 'outputs')`. -/
def outputsDir (cwd : String) : String := join [cwd, "outputs"]

/-- Line 47: the path the uploaded file is copied to. -/
def inputPath (cwd fileId originalFilename : String) : String :=
  join [uploadsDir cwd, fileId ++ originalFilename]

/-- Line 48: the path the external process is expected to write. -/
def outputPath (cwd fileId : String) : String :=
  join [outputsDir cwd, fileId ++ "_compressed.jpg"]

/-- Line 59: `join(process.cwd(), 'matlabcompression')`. -/
def matlabScriptDir (cwd : String) : String := join [cwd, "matlabcompression"]

/-- Line 63: the command line handed to `exec`. -/
def command (scriptDir inPath outPath targetSize resizeFactor : String) : String :=
  "matlab -nodisplay -nosplash -nodesktop -r \"cd('" ++ replaceBackslashes scriptDir
    ++ "'); jpegcompress('" ++ replaceBackslashes inPath
    ++ "', '" ++ replaceBackslashes outPath
    ++ "', " ++ targetSize ++ ", " ++ resizeFactor ++ "); exit;\""

/-- The `catch` block of lines 100-103, reached after the calls `effects`. -/
def failed (effects : List Effect) (message : String) : Run :=
  ⟨effects, ⟨500, [], .json ("Failed to process image: " ++ message)⟩⟩

/-- The function `handler(req, res)` of `pages/api/compress.js`. -/
def handler (w : World) : Run :=
  if w.method ≠ "POST" then
    ⟨[], ⟨405, [], .json "Method not allowed"⟩⟩
  else
    let uploads := uploadsDir w.cwd
    let outputs := outputsDir w.cwd
    let t1 := [Effect.mkdir uploads]
    match w.mkdir uploads with
    | .error m => failed t1 m
    | .ok _ =>
    let t2 := t1 ++ [Effect.mkdir outputs]
    match w.mkdir outputs with
    | .error m => failed t2 m
    | .ok _ =>
    let t3 := t2 ++ [Effect.parse]
    match w.parse with
    | .error m => failed t3 m
    | .ok (fields, files) =>
    match files.image with
    | none => ⟨t3, ⟨400, [], .json "No image file uploaded"⟩⟩
    | some inputFile =>
    let targetSize := orDefault fields.targetSize "500"
    let resizeFactor := orDefault fields.resizeFactor "1"
    let fileId := w.uuidv4
    let inPath := inputPath w.cwd fileId inputFile.originalFilename
    let outPath := outputPath w.cwd fileId
    let t4 := t3 ++ [Effect.copyFile inputFile.filepath inPath]
    match w.copyFile inputFile.filepath inPath with
    | .error m => failed t4 m
    | .ok _ =>
    let cmd := command (matlabScriptDir w.cwd) inPath outPath targetSize resizeFactor
    let t5 := t4 ++ [Effect.exec cmd]
    let result := w.exec cmd
    match result.error with
    | some m => failed t5 ("MATLAB execution failed: " ++ m)
    | none =>
    let matlabOutput := result.stdout
    let t6 := t5 ++ [Effect.access outPath]
    match w.access outPath with
    | .error _ => failed t6 ("Output file not created. MATLAB output: " ++ matlabOutput)
    | .ok _ =>
    let t7 := t6 ++ [Effect.readFile outPath]
    match w.readFile outPath with
    | .error m => failed t7 m
    | .ok compressedImage =>
    ⟨t7 ++ [Effect.unlink inPath, Effect.unlink outPath],
      ⟨200,
        [("Content-Type", "image/jpeg"),
         ("Content-Disposition", "attachment; filename=compressed-image.jpg")],
        .buffer compressedImage⟩⟩

/-- The request is a POST for which both directories are created, the form
parses to `fields` and an `image` file `inputFile`, and the upload is copied to
the input path: the handler gets as far as calling `exec`. -/
def ReachesExec (w : World) (fields : Fields) (inputFile : UploadedFile) : Prop :=
  w.method = "POST" ∧
  w.mkdir (uploadsDir w.cwd) = .ok () ∧
  w.mkdir (outputsDir w.cwd) = .ok () ∧
  w.parse = .ok (fields, ⟨some inputFile⟩) ∧
  w.copyFile inputFile.filepath
    (inputPath w.cwd w.uuidv4 inputFile.originalFilename) = .ok ()

/-- The command line the handler builds for a request with these form data. -/
def requestCommand (w : World) (fields : Fields) (inputFile : UploadedFile) : String :=
  command (matlabScriptDir w.cwd)
    (inputPath w.cwd w.uuidv4 inputFile.originalFilename)
    (outputPath w.cwd w.uuidv4)
    (orDefault fields.targetSize "500") (orDefault fields.resizeFactor "1")

/-- The text with every backslash doubled, in the words of the interface
description rather than of the code: going through the characters in order, a
backslash is written twice and any other character once. -/
def everyBackslashDoubled : List Char → List Char
  | [] => []
  | c :: rest =>
    if c = '\\' then c :: c :: everyBackslashDoubled rest
    else c :: everyBackslashDoubled rest

/-! ## Unique file names -/

/-- Lower-case hexadecimal digit. -/
def isHexDigit (c : Char) : Bool :=
  ('0' ≤ c && c ≤ '9') || ('a' ≤ c && c ≤ 'f')

/-- Checks the characters of a UUID from position `i` on: a hyphen at positions
8, 13, 18 and 23, a hexadecimal digit elsewhere, 36 characters in all. -/
def isUuidFrom : Nat → List Char → Bool
  | i, [] => i == 36
  | i, c :: cs =>
    (if i = 8 ∨ i = 13 ∨ i = 18 ∨ i = 23 then c == '-' else isHexDigit c)
      && isUuidFrom (i + 1) cs

/-- The textual form of a UUID, as `uuidv4()` returns it:
`xxxxxxxx-xxxx-xxxx-xxxx-xxxxxxxxxxxx` with hexadecimal digits for `x`. -/
def isUuid (s : String) : Bool := isUuidFrom 0 s.data

/-- A path segment that `normalizeString` keeps as it is: not empty, without
`/`, and neither `.` nor `..`. -/
def PlainSegment (x : List Char) : Prop :=
  x ≠ [] ∧ '/' ∉ x ∧ x ≠ ['.'] ∧ x ≠ ['.', '.']

/-- What `joinSlash` puts in front of a segment appended to `l`. -/
def slashLead (l : List (List Char)) : List Char :=
  if l = [] then [] else joinSlash l ++ ['/']

/-! ## Sample requests -/

/-- A POST request for which every call succeeds, except that the two
deletions at the end fail. -/
def okWorld : World where
  method := "POST"
  cwd := "/srv/app"
  mkdir := fun _ => .ok ()
  parse := .ok (⟨some "800", none⟩, ⟨some ⟨"cat.png", "/tmp/upload_1"⟩⟩)
  uuidv4 := "110ec58a-a0f2-4ac4-8393-c866d813b8d1"
  copyFile := fun _ _ => .ok ()
  exec := fun _ => ⟨none, "done", ""⟩
  access := fun _ => .ok ()
  readFile := fun _ => .ok [0xFF, 0xD8, 0xFF, 0xD9]
  unlink := fun _ => .error "ENOENT"

/-- The form data of `okWorld`. -/
def okFields : Fields := ⟨some "800", none⟩

/-- The uploaded file of `okWorld`. -/
def okFile : UploadedFile := ⟨"cat.png", "/tmp/upload_1"⟩

/-- The process of `okWorld` fails instead: `matlab` is not installed. -/
def execFailsWorld : World :=
  { okWorld with exec := fun _ => ⟨some "Command failed: matlab: not found", "", ""⟩ }

/-- The process of `okWorld` exits normally but leaves no output file. -/
def noOutputWorld : World :=
  { okWorld with access := fun _ => .error "ENOENT: no such file or directory" }

/-- A POST request in which every call before `exec` throws `EACCES`. -/
def deniedWorld : World :=
  { okWorld with
    mkdir := fun _ => .error "EACCES"
    parse := .error "EACCES"
    copyFile := fun _ _ => .error "EACCES" }

/-- The form of `okWorld` arrives without an `image` file. -/
def noImageWorld : World :=
  { okWorld with parse := .ok (⟨some "800", some "0.5"⟩, ⟨none⟩) }

/-- A POST request for which every call succeeds, with identifier `fileId`,
whose upload, stored by the parser at `tmp`, is named `/../cat.png`. -/
def traversalWorld (fileId tmp : String) : World :=
  { okWorld with
    uuidv4 := fileId
    parse := .ok (okFields, ⟨some ⟨"/../cat.png", tmp⟩⟩) }

/-- The request of `okWorld` on a server whose working directory has a
backslash in its name. -/
def backslashWorld : World :=
  { okWorld with cwd := "/srv/my\\app" }

end Compress

/-! ## The upload form -/

namespace Home

/-- A value appended to the `FormData`: a file, or text (numbers are appended
as their string form). -/
inductive FormValue
  | file (contents : List UInt8)
  | text (value : String)
  deriving DecidableEq, Repr

/-- The call `fetch(url, { method, body })`. -/
structure FetchRequest where
  url : String
  method : String
  body : List (String × FormValue)
  deriving DecidableEq, Repr

/-- What `fetch` and then `response.blob()` come to: `fetch` throws with a
message, or it resolves to a response with its `ok` flag, whose `blob()` either
throws or yields the body. -/
inductive FetchResult
  | rejected (message : String)
  | response (ok : Bool) (blob : Except String (List UInt8))

/-- The browser calls `handleSubmit` makes. -/
structure Browser where
  fetch : FetchRequest → FetchResult
  createObjectURL : List UInt8 → String

/-- The `useState` values of the `Home` component. -/
structure State where
  file : Option (List UInt8)
  targetSize : String
  resizeFactor : String
  status : String
  resultImage : Option String
  deriving DecidableEq, Repr

/-- One call of `handleSubmit`: the requests issued, the arguments of the
`setStatus` calls in order, and the state afterwards. -/
structure Submit where
  requests : List FetchRequest
  statuses : List String
  state : State
  deriving DecidableEq, Repr

/-- The `catch` block of `handleSubmit`, after `request` has been issued. -/
def caught (s : State) (request : FetchRequest) (message : String) : Submit :=
  ⟨[request], ["Uploading and processing...", "Error: " ++ message],
    { s with status := "Error: " ++ message }⟩

/-- The function `handleSubmit` of `pages/index.js`. -/
def handleSubmit (b : Browser) (s : State) : Submit :=
  match s.file with
  | none => ⟨[], [], s⟩
  | some file =>
    let formData : List (String × FormValue) :=
      [("image", .file file), ("targetSize", .text s.targetSize),
       ("resizeFactor", .text s.resizeFactor)]
    let request : FetchRequest := ⟨"/api/compress", "POST", formData⟩
    match b.fetch request with
    | .rejected m => caught s request m
    | .response ok blob =>
      if !ok then caught s request "Failed to compress image"
      else
        match blob with
        | .error m => caught s request m
        | .ok body =>
          let imageUrl := b.createObjectURL body
          ⟨[request], ["Uploading and processing...", "Compression complete!"],
            { s with resultImage := some imageUrl, status := "Compression complete!" }⟩

/-- A browser whose `fetch` always answers with the given result. -/
def browserWith (r : FetchResult) : Browser :=
  ⟨fun _ => r, fun body => "blob:" ++ toString body.length⟩

/-- The form right after a two-byte file has been picked. -/
def picked : State := ⟨some [1, 2], "500", "1", "", none⟩

end Home

namespace Compress

/-! ## Evaluation on sample requests -/

theorem join_eval :
    join ["/srv/app", "uploads"] = "/srv/app/uploads" ∧
    join ["/srv/app/uploads", "ab/../x.png"] = "/srv/app/uploads/x.png" ∧
    join ["a/b/", "../../../c/"] = "../c/" ∧
    join ["", ""] = "." ∧
    join ["/", ".."] = "/" ∧
    replaceBackslashes "C:\\a\\b" = "C:\\\\a\\\\b" := by
  decide

set_option maxRecDepth 100000 in
theorem handler_okWorld_eval :
    handler okWorld =
      ⟨[.mkdir "/srv/app/uploads", .mkdir "/srv/app/outputs", .parse,
        .copyFile "/tmp/upload_1"
          "/srv/app/uploads/110ec58a-a0f2-4ac4-8393-c866d813b8d1cat.png",
        .exec ("matlab -nodisplay -nosplash -nodesktop -r \"cd('/srv/app/matlabcompression'); "
          ++ "jpegcompress('/srv/app/uploads/110ec58a-a0f2-4ac4-8393-c866d813b8d1cat.png', "
          ++ "'/srv/app/outputs/110ec58a-a0f2-4ac4-8393-c866d813b8d1_compressed.jpg', "
          ++ "800, 1); exit;\""),
        .access "/srv/app/outputs/110ec58a-a0f2-4ac4-8393-c866d813b8d1_compressed.jpg",
        .readFile "/srv/app/outputs/110ec58a-a0f2-4ac4-8393-c866d813b8d1_compressed.jpg",
        .unlink "/srv/app/uploads/110ec58a-a0f2-4ac4-8393-c866d813b8d1cat.png",
        .unlink "/srv/app/outputs/110ec58a-a0f2-4ac4-8393-c866d813b8d1_compressed.jpg"],
       ⟨200, [("Content-Type", "image/jpeg"),
              ("Content-Disposition", "attachment; filename=compressed-image.jpg")],
        .buffer [0xFF, 0xD8, 0xFF, 0xD9]⟩⟩ := by
  decide

theorem okWorld_reaches : ReachesExec okWorld okFields okFile := by
  refine ⟨rfl, rfl, rfl, rfl, rfl⟩

/-! ## Path lemmas -/

theorem splitSlash_ne_nil (a : List Char) : splitSlash a ≠ [] := by
  induction a with
  | nil => simp [splitSlash]
  | cons c cs ih =>
    unfold splitSlash
    split
    · simp
    · split
      · simp
      · simp

theorem splitSlash_append (a b : List Char) :
    splitSlash (a ++ '/' :: b) = splitSlash a ++ splitSlash b := by
  induction a with
  | nil => simp [splitSlash]
  | cons c cs ih =>
    by_cases hc : c = '/'
    · simp [splitSlash, hc, ih]
    · have hne := splitSlash_ne_nil cs
      cases hs : splitSlash cs with
      | nil => exact absurd hs hne
      | cons s ss => simp [splitSlash, hc, ih, hs]

theorem splitSlash_plain (x : List Char) (h : '/' ∉ x) : splitSlash x = [x] := by
  induction x with
  | nil => rfl
  | cons c cs ih =>
    have hc : c ≠ '/' := fun e => h (by simp [e])
    have hcs : '/' ∉ cs := fun e => h (List.mem_cons_of_mem _ e)
    simp [splitSlash, hc, ih hcs]

theorem joinSlash_concat (l : List (List Char)) (x : List Char) :
    joinSlash (l ++ [x]) = slashLead l ++ x := by
  induction l with
  | nil => simp [joinSlash, slashLead]
  | cons s rest ih =>
    cases rest with
    | nil => simp [joinSlash, slashLead]
    | cons t rest2 =>
      have e : (s :: t :: rest2) ++ [x] = s :: t :: (rest2 ++ [x]) := rfl
      have ih2 : joinSlash (t :: (rest2 ++ [x])) = slashLead (t :: rest2) ++ x := ih
      rw [e]
      simp only [joinSlash]
      rw [ih2]
      simp [slashLead, joinSlash]

theorem pushSegment_plain (allow : Bool) (stack : List (List Char)) (x : List Char)
    (h : PlainSegment x) : pushSegment allow stack x = x :: stack := by
  obtain ⟨h0, _, h1, h2⟩ := h
  simp [pushSegment, h0, h1, h2]

theorem normalizeString_dir_segment (d x : List Char) (allow : Bool) (h : PlainSegment x) :
    normalizeString (d ++ '/' :: x) allow
      = slashLead ((splitSlash d).foldl (pushSegment allow) []).reverse ++ x := by
  unfold normalizeString
  rw [splitSlash_append, splitSlash_plain x h.2.1, List.foldl_append]
  simp only [List.foldl_cons, List.foldl_nil]
  rw [pushSegment_plain allow _ x h, List.reverse_cons, joinSlash_concat]

theorem getLast_plain (d x : List Char) (h : PlainSegment x) :
    (d ++ x).getLast? ≠ some '/' := by
  obtain ⟨h0, hs, _, _⟩ := h
  rw [List.getLast?_append_of_ne_nil _ h0, List.getLast?_eq_getLast _ h0]
  intro e
  exact hs (by
    have := List.getLast_mem h0
    rwa [Option.some.inj e] at this)

theorem head_plain (x : List Char) (h : PlainSegment x) : x.head? ≠ some '/' := by
  obtain ⟨h0, hs, _, _⟩ := h
  cases x with
  | nil => exact absurd rfl h0
  | cons c cs =>
    intro e
    exact hs (by simp at e; simp [e])

theorem normalize_plain (x : List Char) (h : PlainSegment x) : normalize x = x := by
  have hh := head_plain x h
  have hl : x.getLast? ≠ some '/' := by simpa using getLast_plain [] x h
  have hp : normalizeString x true = x := by
    unfold normalizeString
    rw [splitSlash_plain x h.2.1]
    simp [pushSegment_plain true [] x h, joinSlash]
  simp [normalize, h.1, hh, hl, hp]

theorem normalize_dir_segment (d x : List Char) (hd : d ≠ []) (h : PlainSegment x) :
    normalize (d ++ '/' :: x)
      = (if d.head? = some '/' then ['/'] else [])
        ++ slashLead
            ((splitSlash d).foldl (pushSegment (!decide (d.head? = some '/'))) []).reverse
        ++ x := by
  have hhead : (d ++ '/' :: x).head? = d.head? := by
    cases d with
    | nil => exact absurd rfl hd
    | cons c cs => rfl
  have hl : (d ++ '/' :: x).getLast? ≠ some '/' := by
    have := getLast_plain (d ++ ['/']) x h
    simpa using this
  have hne : d ++ '/' :: x ≠ [] := by simp
  have hx : x ≠ [] := h.1
  unfold normalize
  simp only [hne, if_false, hhead, hl, normalizeString_dir_segment d x _ h]
  by_cases ha : d.head? = some '/'
  · simp [ha, hx]
  · simp [ha, hx]

theorem join_plain (d : String) :
    ∃ pre : List Char, ∀ x : String, PlainSegment x.data →
      (join [d, x]).data = pre ++ x.data := by
  by_cases hd : d.data = []
  · refine ⟨[], fun x h => ?_⟩
    have hx : x.data ≠ [] := h.1
    have hdl : d.length = 0 := by
      show d.data.length = 0
      simp [hd]
    have hxl : 0 < x.length := List.length_pos.mpr hx
    simp [join, hdl, hxl, joinSlash, normalize_plain x.data h]
  · refine ⟨(if d.data.head? = some '/' then ['/'] else [])
        ++ slashLead ((splitSlash d.data).foldl
            (pushSegment (!decide (d.data.head? = some '/'))) []).reverse, fun x h => ?_⟩
    have hx : x.data ≠ [] := h.1
    have hdl : 0 < d.length := List.length_pos.mpr hd
    have hxl : 0 < x.length := List.length_pos.mpr hx
    simp [join, hdl, hxl, joinSlash, normalize_dir_segment d.data x.data hd h]

theorem isUuidFrom_length (i : Nat) (l : List Char) (h : isUuidFrom i l = true) :
    i + l.length = 36 := by
  induction l generalizing i with
  | nil => simpa [isUuidFrom] using h
  | cons c cs ih =>
    simp only [isUuidFrom, Bool.and_eq_true] at h
    have := ih (i + 1) h.2
    simp only [List.length_cons]
    omega

theorem isUuidFrom_no_slash (i : Nat) (l : List Char) (h : isUuidFrom i l = true) :
    '/' ∉ l := by
  induction l generalizing i with
  | nil => simp
  | cons c cs ih =>
    simp only [isUuidFrom, Bool.and_eq_true] at h
    intro hmem
    rcases List.mem_cons.mp hmem with e | e
    · subst e
      have h1 := h.1
      split at h1
      · exact absurd h1 (by decide)
      · exact absurd h1 (by decide)
    · exact ih (i + 1) h.2 e

theorem plain_of_uuid (fileId rest : String) (h : isUuid fileId = true)
    (hrest : '/' ∉ rest.data) : PlainSegment (fileId ++ rest).data := by
  have hlen : fileId.data.length = 36 := by
    simpa using isUuidFrom_length 0 fileId.data h
  have hs := isUuidFrom_no_slash 0 fileId.data h
  have hd : (fileId ++ rest).data = fileId.data ++ rest.data := String.data_append _ _
  have hl : 36 ≤ (fileId ++ rest).data.length := by
    rw [hd, List.length_append]
    omega
  refine ⟨?_, ?_, ?_, ?_⟩
  · intro e
    rw [e] at hl
    simp at hl
  · rw [hd]
    simp [hs, hrest]
  · intro e
    rw [e] at hl
    simp at hl
  · intro e
    rw [e] at hl
    simp at hl

theorem join_uuid_injective (d id1 id2 n1 n2 : String)
    (h1 : isUuid id1 = true) (h2 : isUuid id2 = true)
    (hn1 : '/' ∉ n1.data) (hn2 : '/' ∉ n2.data)
    (e : join [d, id1 ++ n1] = join [d, id2 ++ n2]) : id1 = id2 := by
  obtain ⟨pre, hpre⟩ := join_plain d
  have e1 := hpre (id1 ++ n1) (plain_of_uuid id1 n1 h1 hn1)
  have e2 := hpre (id2 ++ n2) (plain_of_uuid id2 n2 h2 hn2)
  rw [e, e2] at e1
  have e3 : (id2 ++ n2).data = (id1 ++ n1).data := List.append_cancel_left e1
  rw [String.data_append, String.data_append] at e3
  have hl1 : id1.data.length = 36 := by simpa using isUuidFrom_length 0 id1.data h1
  have hl2 : id2.data.length = 36 := by simpa using isUuidFrom_length 0 id2.data h2
  have := (List.append_inj e3 (by omega)).1
  exact String.ext this.symm

/-- Requests with distinct UUIDs write distinct output files, and distinct
input files as long as neither original file name contains a `/`. -/
theorem distinct_ids_distinct_paths (cwd id1 id2 : String)
    (h1 : isUuid id1 = true) (h2 : isUuid id2 = true) (hne : id1 ≠ id2) :
    outputPath cwd id1 ≠ outputPath cwd id2 ∧
    ∀ n1 n2 : String, '/' ∉ n1.data → '/' ∉ n2.data →
      inputPath cwd id1 n1 ≠ inputPath cwd id2 n2 := by
  refine ⟨?_, ?_⟩
  · intro e
    exact hne (join_uuid_injective (outputsDir cwd) id1 id2 "_compressed.jpg"
      "_compressed.jpg" h1 h2 (by decide) (by decide) e)
  · intro n1 n2 hn1 hn2 e
    exact hne (join_uuid_injective (uploadsDir cwd) id1 id2 n1 n2 h1 h2 hn1 hn2 e)

/-! ## The endpoint -/

/-- C1: a request whose method is not POST is answered with status 405 and the
JSON body with error 'Method not allowed', and the handler makes no call at all
on the file system, the form parser or the shell. -/
theorem C1_non_post_method_not_allowed (w : World) (h : w.method ≠ "POST") :
    handler w = ⟨[], ⟨405, [], .json "Method not allowed"⟩⟩ := by
  simp [handler, h]

theorem C1_witness :
    handler { okWorld with method := "GET" } = ⟨[], ⟨405, [], .json "Method not allowed"⟩⟩ :=
  C1_non_post_method_not_allowed { okWorld with method := "GET" } (by decide)

/-- C2: when a POST request has its form parsed and the parsed form has no
`image` file, the response is status 400 with error 'No image file uploaded',
nothing is copied and `exec` is not called, whatever the other fields are. -/
theorem C2_missing_image_bad_request (w : World) (fields : Fields) (files : Files)
    (hm : w.method = "POST") (hrun : Effect.parse ∈ (handler w).effects)
    (hp : w.parse = .ok (fields, files)) (hi : files.image = none) :
    (handler w).response = ⟨400, [], .json "No image file uploaded"⟩ ∧
    (∀ src dest, Effect.copyFile src dest ∉ (handler w).effects) ∧
    (∀ c, Effect.exec c ∉ (handler w).effects) := by
  cases h1 : w.mkdir (uploadsDir w.cwd) with
  | error m => simp [handler, hm, h1, failed] at hrun
  | ok u =>
    cases h2 : w.mkdir (outputsDir w.cwd) with
    | error m => simp [handler, hm, h1, h2, failed] at hrun
    | ok v => simp [handler, hm, h1, h2, hp, hi]

set_option maxRecDepth 100000 in
theorem C2_witness :
    (handler noImageWorld).response = ⟨400, [], .json "No image file uploaded"⟩ ∧
    (∀ src dest, Effect.copyFile src dest ∉ (handler noImageWorld).effects) ∧
    (∀ c, Effect.exec c ∉ (handler noImageWorld).effects) :=
  C2_missing_image_bad_request noImageWorld ⟨some "800", some "0.5"⟩ ⟨none⟩
    rfl (by decide) rfl rfl

/-- C3: when the handler gets as far as `exec`, the process reports no error,
and the output file is accessible and read with contents `data`, the response
is status 200 with Content-Type 'image/jpeg', Content-Disposition
'attachment; filename=compressed-image.jpg' and body `data`, the bytes read
from `<outputs>/<fileId>_compressed.jpg`; the response is the same whatever the
two deletions answer. -/
theorem C3_success_returns_output_file (w : World) (fields : Fields)
    (inputFile : UploadedFile) (data : Buffer)
    (hreach : ReachesExec w fields inputFile)
    (hexec : (w.exec (requestCommand w fields inputFile)).error = none)
    (haccess : w.access (outputPath w.cwd w.uuidv4) = .ok ())
    (hread : w.readFile (join [join [w.cwd, "outputs"], w.uuidv4 ++ "_compressed.jpg"])
      = .ok data) :
    (handler w).response =
      ⟨200,
        [("Content-Type", "image/jpeg"),
         ("Content-Disposition", "attachment; filename=compressed-image.jpg")],
        .buffer data⟩ ∧
    Effect.readFile (join [join [w.cwd, "outputs"], w.uuidv4 ++ "_compressed.jpg"])
      ∈ (handler w).effects ∧
    ∀ unlink : String → Except String Unit,
      (handler { w with unlink := unlink }).response = (handler w).response := by
  obtain ⟨hm, h1, h2, hp, hc⟩ := hreach
  simp only [requestCommand] at hexec
  have hread2 : w.readFile (outputPath w.cwd w.uuidv4) = .ok data := hread
  have hpath : join [join [w.cwd, "outputs"], w.uuidv4 ++ "_compressed.jpg"]
      = outputPath w.cwd w.uuidv4 := rfl
  rw [hpath]
  simp [handler, hm, h1, h2, hp, hc, hexec, haccess, hread2]

theorem C3_witness :
    (handler okWorld).response =
      ⟨200,
        [("Content-Type", "image/jpeg"),
         ("Content-Disposition", "attachment; filename=compressed-image.jpg")],
        .buffer [0xFF, 0xD8, 0xFF, 0xD9]⟩ ∧
    Effect.readFile (join [join [okWorld.cwd, "outputs"], okWorld.uuidv4 ++ "_compressed.jpg"])
      ∈ (handler okWorld).effects ∧
    ∀ unlink : String → Except String Unit,
      (handler { okWorld with unlink := unlink }).response = (handler okWorld).response :=
  C3_success_returns_output_file okWorld okFields okFile [0xFF, 0xD8, 0xFF, 0xD9]
    okWorld_reaches rfl rfl rfl

/-- C4: when the handler gets as far as `exec` and the process reports an error
with message `m`, the response is status 500 with error
'Failed to process image: MATLAB execution failed: ' followed by `m`, and the
output file is neither checked for nor read. -/
theorem C4_exec_error_reported (w : World) (fields : Fields) (inputFile : UploadedFile)
    (m : String)
    (hreach : ReachesExec w fields inputFile)
    (hexec : (w.exec (requestCommand w fields inputFile)).error = some m) :
    (handler w).response =
      ⟨500, [], .json ("Failed to process image: MATLAB execution failed: " ++ m)⟩ ∧
    (∀ p, Effect.access p ∉ (handler w).effects) ∧
    (∀ p, Effect.readFile p ∉ (handler w).effects) := by
  obtain ⟨hm, h1, h2, hp, hc⟩ := hreach
  simp only [requestCommand] at hexec
  simp [handler, hm, h1, h2, hp, hc, hexec, failed]
  rw [← String.append_assoc]
  rfl

theorem C4_witness :
    (handler execFailsWorld).response =
      ⟨500, [], .json ("Failed to process image: MATLAB execution failed: "
        ++ "Command failed: matlab: not found")⟩ ∧
    (∀ p, Effect.access p ∉ (handler execFailsWorld).effects) ∧
    (∀ p, Effect.readFile p ∉ (handler execFailsWorld).effects) :=
  C4_exec_error_reported execFailsWorld okFields okFile "Command failed: matlab: not found"
    ⟨rfl, rfl, rfl, rfl, rfl⟩ rfl

/-- C5: when the handler gets as far as `exec`, the process reports no error and
has written `s` to stdout, and the output file is not accessible, the response
is status 500 with error
'Failed to process image: Output file not created. MATLAB output: ' followed by
`s`; no header is set, the body is not an image and the output file is not read. -/
theorem C5_missing_output_reported (w : World) (fields : Fields) (inputFile : UploadedFile)
    (s e : String)
    (hreach : ReachesExec w fields inputFile)
    (hexec : (w.exec (requestCommand w fields inputFile)).error = none)
    (hout : (w.exec (requestCommand w fields inputFile)).stdout = s)
    (haccess : w.access (outputPath w.cwd w.uuidv4) = .error e) :
    (handler w).response =
      ⟨500, [],
        .json ("Failed to process image: Output file not created. MATLAB output: " ++ s)⟩ ∧
    (∀ p, Effect.readFile p ∉ (handler w).effects) := by
  obtain ⟨hm, h1, h2, hp, hc⟩ := hreach
  simp only [requestCommand] at hexec hout
  simp [handler, hm, h1, h2, hp, hc, hexec, hout, haccess, failed]
  rw [← String.append_assoc]
  rfl

theorem C5_witness :
    (handler noOutputWorld).response =
      ⟨500, [],
        .json ("Failed to process image: Output file not created. MATLAB output: "
          ++ "done")⟩ ∧
    (∀ p, Effect.readFile p ∉ (handler noOutputWorld).effects) :=
  C5_missing_output_reported noOutputWorld okFields okFile "done"
    "ENOENT: no such file or directory" ⟨rfl, rfl, rfl, rfl, rfl⟩ rfl rfl rfl

set_option maxRecDepth 100000 in
/-- C6: the deletion of the two temporary files is not attempted on the failure
paths.  After the upload has been saved, a request whose process fails, and one
whose process leaves no output file, end with no `unlink` call at all. -/
theorem C6_no_cleanup_on_failure :
    ReachesExec execFailsWorld okFields okFile ∧
    (handler execFailsWorld).effects =
      [.mkdir "/srv/app/uploads", .mkdir "/srv/app/outputs", .parse,
       .copyFile "/tmp/upload_1"
         "/srv/app/uploads/110ec58a-a0f2-4ac4-8393-c866d813b8d1cat.png",
       .exec (requestCommand execFailsWorld okFields okFile)] ∧
    (∀ p, Effect.unlink p ∉ (handler execFailsWorld).effects) ∧
    ReachesExec noOutputWorld okFields okFile ∧
    (∀ p, Effect.unlink p ∉ (handler noOutputWorld).effects) := by
  refine ⟨⟨rfl, rfl, rfl, rfl, rfl⟩, by decide, ?_, ⟨rfl, rfl, rfl, rfl, rfl⟩, ?_⟩
  · intro p
    simp [handler, execFailsWorld, okWorld, failed]
  · intro p
    simp [handler, noOutputWorld, okWorld, failed]

set_option maxRecDepth 100000 in
/-- C7: distinct identifiers do not give distinct input paths.  Two requests
with different UUIDs whose uploads are both named `/../cat.png` have the same
input path `/srv/app/uploads/cat.png`, and the handler copies both uploads
there, so the second request overwrites the file of the first. -/
theorem C7_input_paths_collide :
    isUuid "110ec58a-a0f2-4ac4-8393-c866d813b8d1" = true ∧
    isUuid "6fa459ea-ee8a-4ca4-894e-db77e160355e" = true ∧
    "110ec58a-a0f2-4ac4-8393-c866d813b8d1" ≠ "6fa459ea-ee8a-4ca4-894e-db77e160355e" ∧
    inputPath "/srv/app" "110ec58a-a0f2-4ac4-8393-c866d813b8d1" "/../cat.png"
      = inputPath "/srv/app" "6fa459ea-ee8a-4ca4-894e-db77e160355e" "/../cat.png" ∧
    Effect.copyFile "/tmp/upload_1" "/srv/app/uploads/cat.png"
      ∈ (handler (traversalWorld "110ec58a-a0f2-4ac4-8393-c866d813b8d1"
          "/tmp/upload_1")).effects ∧
    Effect.copyFile "/tmp/upload_2" "/srv/app/uploads/cat.png"
      ∈ (handler (traversalWorld "6fa459ea-ee8a-4ca4-894e-db77e160355e"
          "/tmp/upload_2")).effects := by
  decide

/-- C8: when the handler gets as far as `exec`, the one command it runs is
`matlab -nodisplay -nosplash -nodesktop -r "cd('D'); jpegcompress('I', 'O', T, R); exit;"`
with D, I, O the script directory, input path and output path with every
backslash doubled (`everyBackslashDoubled`, defined apart from the code), T the
`targetSize` field as sent, or 500 when it is absent or empty, and R the
`resizeFactor` field as sent, or 1 when it is absent or empty. -/
theorem C8_command_line (w : World) (fields : Fields) (inputFile : UploadedFile)
    (T R : String)
    (hreach : ReachesExec w fields inputFile)
    (hT : (fields.targetSize = some T ∧ T ≠ "") ∨
      ((fields.targetSize = none ∨ fields.targetSize = some "") ∧ T = "500"))
    (hR : (fields.resizeFactor = some R ∧ R ≠ "") ∨
      ((fields.resizeFactor = none ∨ fields.resizeFactor = some "") ∧ R = "1")) :
    ∀ c, Effect.exec c ∈ (handler w).effects ↔
      c = "matlab -nodisplay -nosplash -nodesktop -r \"cd('"
        ++ String.mk (everyBackslashDoubled (join [w.cwd, "matlabcompression"]).data)
        ++ "'); jpegcompress('"
        ++ String.mk (everyBackslashDoubled
            (join [join [w.cwd, "uploads"], w.uuidv4 ++ inputFile.originalFilename]).data)
        ++ "', '"
        ++ String.mk (everyBackslashDoubled
            (join [join [w.cwd, "outputs"], w.uuidv4 ++ "_compressed.jpg"]).data)
        ++ "', " ++ T ++ ", " ++ R ++ "); exit;\"" := by
  obtain ⟨hm, h1, h2, hp, hc⟩ := hreach
  have hT2 : orDefault fields.targetSize "500" = T := by
    rcases hT with ⟨h, hne⟩ | ⟨h | h, rfl⟩
    · simp [orDefault, h, hne]
    · simp [orDefault, h]
    · simp [orDefault, h]
  have hR2 : orDefault fields.resizeFactor "1" = R := by
    rcases hR with ⟨h, hne⟩ | ⟨h | h, rfl⟩
    · simp [orDefault, h, hne]
    · simp [orDefault, h]
    · simp [orDefault, h]
  intro c
  have hflat : ∀ l : List Char,
      l.flatMap (fun c => if c = '\\' then ['\\', '\\'] else [c])
        = everyBackslashDoubled l := by
    intro l
    induction l with
    | nil => rfl
    | cons c rest ih =>
      by_cases hc : c = '\\'
      · simp only [List.flatMap_cons, everyBackslashDoubled, hc, if_true, ih]
        rfl
      · simp only [List.flatMap_cons, everyBackslashDoubled, hc, if_false, ih]
        rfl
  have hdouble : ∀ s : String,
      String.mk (everyBackslashDoubled s.data) = replaceBackslashes s := by
    intro s
    simp only [replaceBackslashes, hflat]
  have hcmd : "matlab -nodisplay -nosplash -nodesktop -r \"cd('"
        ++ String.mk (everyBackslashDoubled (join [w.cwd, "matlabcompression"]).data)
        ++ "'); jpegcompress('"
        ++ String.mk (everyBackslashDoubled
            (join [join [w.cwd, "uploads"], w.uuidv4 ++ inputFile.originalFilename]).data)
        ++ "', '"
        ++ String.mk (everyBackslashDoubled
            (join [join [w.cwd, "outputs"], w.uuidv4 ++ "_compressed.jpg"]).data)
        ++ "', " ++ T ++ ", " ++ R ++ "); exit;\""
      = command (matlabScriptDir w.cwd)
          (inputPath w.cwd w.uuidv4 inputFile.originalFilename)
          (outputPath w.cwd w.uuidv4) T R := by
    rw [hdouble, hdouble, hdouble]
    rfl
  rw [hcmd]
  simp only [handler, hm, h1, h2, hp, hc, hT2, hR2, failed, ne_eq, not_true_eq_false,
    if_false]
  split
  · simp [eq_comm]
  · split
    · simp [eq_comm]
    · split <;> simp [eq_comm]

set_option maxRecDepth 100000 in
theorem C8_witness :
    Effect.exec
      ("matlab -nodisplay -nosplash -nodesktop -r \"cd('/srv/my\\\\app/matlabcompression'); "
        ++ "jpegcompress('/srv/my\\\\app/uploads/110ec58a-a0f2-4ac4-8393-c866d813b8d1cat.png', "
        ++ "'/srv/my\\\\app/outputs/110ec58a-a0f2-4ac4-8393-c866d813b8d1_compressed.jpg', "
        ++ "800, 1); exit;\"")
      ∈ (handler backslashWorld).effects :=
  (C8_command_line backslashWorld okFields okFile "800" "1" ⟨rfl, rfl, rfl, rfl, rfl⟩
    (Or.inl ⟨rfl, by decide⟩) (Or.inr ⟨Or.inl rfl, rfl⟩) _).mpr (by decide)

/-- C9: in a POST request, when creating the uploads directory, creating the
outputs directory, parsing the form, or copying the upload to the input path
throws with message `m`, the response is status 500 with error
'Failed to process image: ' followed by `m`, the throwing call is the last call
made, and `exec` is never called. -/
theorem C9_early_failure_short_circuits (w : World) (m : String) (hm : w.method = "POST") :
    (w.mkdir (join [w.cwd, "uploads"]) = .error m →
      handler w =
        ⟨[.mkdir (join [w.cwd, "uploads"])],
         ⟨500, [], .json ("Failed to process image: " ++ m)⟩⟩) ∧
    (w.mkdir (join [w.cwd, "uploads"]) = .ok () →
     w.mkdir (join [w.cwd, "outputs"]) = .error m →
      handler w =
        ⟨[.mkdir (join [w.cwd, "uploads"]), .mkdir (join [w.cwd, "outputs"])],
         ⟨500, [], .json ("Failed to process image: " ++ m)⟩⟩) ∧
    (w.mkdir (join [w.cwd, "uploads"]) = .ok () →
     w.mkdir (join [w.cwd, "outputs"]) = .ok () →
     w.parse = .error m →
      handler w =
        ⟨[.mkdir (join [w.cwd, "uploads"]), .mkdir (join [w.cwd, "outputs"]), .parse],
         ⟨500, [], .json ("Failed to process image: " ++ m)⟩⟩) ∧
    (∀ (fields : Fields) (inputFile : UploadedFile),
     w.mkdir (join [w.cwd, "uploads"]) = .ok () →
     w.mkdir (join [w.cwd, "outputs"]) = .ok () →
     w.parse = .ok (fields, ⟨some inputFile⟩) →
     w.copyFile inputFile.filepath
       (join [join [w.cwd, "uploads"], w.uuidv4 ++ inputFile.originalFilename]) = .error m →
      handler w =
        ⟨[.mkdir (join [w.cwd, "uploads"]), .mkdir (join [w.cwd, "outputs"]), .parse,
          .copyFile inputFile.filepath
            (join [join [w.cwd, "uploads"], w.uuidv4 ++ inputFile.originalFilename])],
         ⟨500, [], .json ("Failed to process image: " ++ m)⟩⟩) := by
  have hu : join [w.cwd, "uploads"] = uploadsDir w.cwd := rfl
  have ho : join [w.cwd, "outputs"] = outputsDir w.cwd := rfl
  rw [hu, ho]
  refine ⟨?_, ?_, ?_, ?_⟩
  · intro h1
    simp [handler, hm, h1, failed]
  · intro h1 h2
    simp [handler, hm, h1, h2, failed]
  · intro h1 h2 hp
    simp [handler, hm, h1, h2, hp, failed]
  · intro fields inputFile h1 h2 hp hc
    have hi : join [uploadsDir w.cwd, w.uuidv4 ++ inputFile.originalFilename]
        = inputPath w.cwd w.uuidv4 inputFile.originalFilename := rfl
    rw [hi] at hc ⊢
    simp [handler, hm, h1, h2, hp, hc, failed]

theorem C9_witness :
    handler deniedWorld =
      ⟨[.mkdir (join [deniedWorld.cwd, "uploads"])],
       ⟨500, [], .json ("Failed to process image: " ++ "EACCES")⟩⟩ ∧
    handler { okWorld with copyFile := fun _ _ => .error "ENOSPC" } =
      ⟨[.mkdir (join ["/srv/app", "uploads"]), .mkdir (join ["/srv/app", "outputs"]), .parse,
        .copyFile okFile.filepath
          (join [join ["/srv/app", "uploads"], okWorld.uuidv4 ++ okFile.originalFilename])],
       ⟨500, [], .json ("Failed to process image: " ++ "ENOSPC")⟩⟩ :=
  ⟨(C9_early_failure_short_circuits deniedWorld "EACCES" rfl).1 rfl,
   (C9_early_failure_short_circuits { okWorld with copyFile := fun _ _ => .error "ENOSPC" }
      "ENOSPC" rfl).2.2.2 okFields okFile rfl rfl rfl rfl⟩

end Compress

namespace Home

/-! ## The upload form: `handleSubmit` -/

/-- C10: `handleSubmit` with no file selected issues no request and leaves the
state as it is.  With a file selected it sets the status to
'Uploading and processing...' first and issues exactly one POST to
/api/compress with the fields image, targetSize and resizeFactor; then, when
`fetch` throws, the response is not `ok`, or reading its body throws, the final
status is 'Error: ' followed by the message ('Failed to compress image' for a
response that is not `ok`) and nothing else changes; otherwise the final status
is 'Compression complete!' and the result image is the object URL of the body. -/
theorem C10_handleSubmit (b : Browser) (s : State) :
    (s.file = none → handleSubmit b s = ⟨[], [], s⟩) ∧
    (∀ file, s.file = some file →
      (handleSubmit b s).requests =
        [⟨"/api/compress", "POST",
          [("image", .file file), ("targetSize", .text s.targetSize),
           ("resizeFactor", .text s.resizeFactor)]⟩] ∧
      (handleSubmit b s).statuses.head? = some "Uploading and processing..." ∧
      (∀ r ∈ (handleSubmit b s).requests,
        (∀ m, b.fetch r = .rejected m →
          (handleSubmit b s).statuses = ["Uploading and processing...", "Error: " ++ m] ∧
          (handleSubmit b s).state = { s with status := "Error: " ++ m }) ∧
        (∀ blob, b.fetch r = .response false blob →
          (handleSubmit b s).statuses =
            ["Uploading and processing...", "Error: Failed to compress image"] ∧
          (handleSubmit b s).state = { s with status := "Error: Failed to compress image" }) ∧
        (∀ m, b.fetch r = .response true (.error m) →
          (handleSubmit b s).statuses = ["Uploading and processing...", "Error: " ++ m] ∧
          (handleSubmit b s).state = { s with status := "Error: " ++ m }) ∧
        (∀ body, b.fetch r = .response true (.ok body) →
          (handleSubmit b s).statuses =
            ["Uploading and processing...", "Compression complete!"] ∧
          (handleSubmit b s).state =
            { s with status := "Compression complete!"
                     resultImage := some (b.createObjectURL body) }))) := by
  refine ⟨?_, ?_⟩
  · intro h
    simp [handleSubmit, h]
  · intro file h
    have hreq : (handleSubmit b s).requests =
        [⟨"/api/compress", "POST",
          [("image", .file file), ("targetSize", .text s.targetSize),
           ("resizeFactor", .text s.resizeFactor)]⟩] := by
      simp only [handleSubmit, h, caught]
      split
      · rfl
      · split
        · rfl
        · split <;> rfl
    refine ⟨hreq, ?_, ?_⟩
    · simp only [handleSubmit, h, caught]
      split
      · rfl
      · split
        · rfl
        · split <;> rfl
    · intro r hr
      rw [hreq] at hr
      simp only [List.mem_singleton] at hr
      subst hr
      refine ⟨?_, ?_, ?_, ?_⟩
      · intro m hf
        simp [handleSubmit, h, hf, caught]
      · intro blob hf
        simp [handleSubmit, h, hf, caught]
      · intro m hf
        simp [handleSubmit, h, hf, caught]
      · intro body hf
        simp [handleSubmit, h, hf]

theorem C10_witness :
    handleSubmit (browserWith (.rejected "x")) { picked with file := none }
      = ⟨[], [], { picked with file := none }⟩ ∧
    (handleSubmit (browserWith (.response true (.ok [7, 7, 7]))) picked).state
      = { picked with status := "Compression complete!", resultImage := some "blob:3" } ∧
    (handleSubmit (browserWith (.response false (.ok []))) picked).state
      = { picked with status := "Error: Failed to compress image" } :=
  ⟨(C10_handleSubmit (browserWith (.rejected "x")) { picked with file := none }).1 rfl,
   ((((C10_handleSubmit (browserWith (.response true (.ok [7, 7, 7]))) picked).2 [1, 2] rfl).2.2
      _ (List.mem_singleton.mpr rfl)).2.2.2 [7, 7, 7] rfl).2,
   ((((C10_handleSubmit (browserWith (.response false (.ok []))) picked).2 [1, 2] rfl).2.2
      _ (List.mem_singleton.mpr rfl)).2.1 (.ok []) rfl).2⟩

end Home
